import Mathlib

/-!
Verification of the geometry and rendering-consistency core of a
template-based form builder (React/TypeScript frontend).

The embedding below translates the pure numeric logic of the frontend
sources into Lean, using `ℚ` for JavaScript numbers (every operation the
embedded code performs — +, -, *, /, min, max — is exact on the rational
inputs considered, so `ℚ` is a faithful model of the IEEE computations at
those inputs):

* `src/frontend/src/utils/positioning.ts` — `percentToPixels`,
  `pixelsToPercent`, `applyCanvasTransform`, `clamp`;
* `src/frontend/src/utils/fontSizing.ts` — `calculateFontSize`,
  `calculateLineHeight`, `getTextStyle`;
* `src/frontend/src/components/TemplateCanvas.tsx` /
  `PreviewCanvas` — `updateDisplayDimensions` (object-contain layout);
* `src/frontend/src/components/FieldOverlay.tsx` — the font size and
  chrome sizes the editor overlay applies;
* `src/frontend/src/components/PreviewCanvas.tsx` — the scaled font size
  the read-only preview applies;
* `src/frontend/src/components/TemplateBuilder.tsx` — `handleFieldDrag`
  and `handleFieldResize` pointer-move updates on the field-positions map.
-/

/-- `FieldPosition` from `src/frontend/src/types.ts`: a field rectangle in
percentages of the reference image (also reused for derived pixel
rectangles, which have the same `\x7bx, y, width, height\x7d` shape). -/
@[ext]
structure FieldPosition where
  x : ℚ
  y : ℚ
  width : ℚ
  height : ℚ
deriving Repr, DecidableEq

/-- `percentToPixels` from `positioning.ts`: convert a percentage position
to a pixel position in the frame `imageWidth × imageHeight`. -/
def percentToPixels (percent : FieldPosition) (imageWidth imageHeight : ℚ) :
    FieldPosition :=
  { x := percent.x / 100 * imageWidth
    y := percent.y / 100 * imageHeight
    width := percent.width / 100 * imageWidth
    height := percent.height / 100 * imageHeight }

/-- `pixelsToPercent` from `positioning.ts`: convert a pixel position back
to a percentage position. -/
def pixelsToPercent (pixels : FieldPosition) (imageWidth imageHeight : ℚ) :
    FieldPosition :=
  { x := pixels.x / imageWidth * 100
    y := pixels.y / imageHeight * 100
    width := pixels.width / imageWidth * 100
    height := pixels.height / imageHeight * 100 }

/-- `clamp` from `positioning.ts`: `Math.min(Math.max(value, min), max)`. -/
def clamp (value mn mx : ℚ) : ℚ :=
  min (max value mn) mx

/-- `calculateFontSize` from `fontSizing.ts`:
`Math.max(10, Math.min(20, fieldHeight * 0.6))`. -/
def calculateFontSize (fieldHeight : ℚ) : ℚ :=
  max 10 (min 20 (fieldHeight * 0.6))

/-- `calculateLineHeight` from `fontSizing.ts`: `fontSize * 1.2`. -/
def calculateLineHeight (fontSize : ℚ) : ℚ :=
  fontSize * 1.2

/-- `getTextStyle` from `fontSizing.ts`, modelled by its numeric content:
the source returns the CSS strings `px`-suffixed, and its one consumer
(`PreviewCanvas`) immediately recovers the numbers with `parseFloat`. -/
def getTextStyle (fieldHeight : ℚ) : ℚ × ℚ :=
  let fontSize := calculateFontSize fieldHeight
  let lineHeight := calculateLineHeight fontSize
  (fontSize, lineHeight)

/-- The display layout computed by `updateDisplayDimensions`. -/
@[ext]
structure DisplayDimensions where
  width : ℚ
  height : ℚ
  offsetX : ℚ
  offsetY : ℚ
deriving Repr, DecidableEq

/-- `updateDisplayDimensions` from `TemplateCanvas.tsx` (the identical
inline function also appears in `PreviewCanvas`): object-contain layout of
an image inside a container, centered on the constrained axis. -/
def updateDisplayDimensions (containerWidth containerHeight imageWidth imageHeight : ℚ) :
    DisplayDimensions :=
  let imageAspectRatio := imageWidth / imageHeight
  let containerAspectRatio := containerWidth / containerHeight
  if containerAspectRatio > imageAspectRatio then
    -- Container is wider - image will be limited by height
    let displayHeight := containerHeight
    let displayWidth := displayHeight * imageAspectRatio
    { width := displayWidth, height := displayHeight
      offsetX := (containerWidth - displayWidth) / 2, offsetY := 0 }
  else
    -- Container is taller - image will be limited by width
    let displayWidth := containerWidth
    let displayHeight := displayWidth / imageAspectRatio
    { width := displayWidth, height := displayHeight
      offsetX := 0, offsetY := (containerHeight - displayHeight) / 2 }

/-- The font size the editor overlay (`FieldOverlay.tsx`) applies to a
field's value text: `calculateFontSize` of the field height converted into
the ACTUAL (natural) image frame — the display dimensions are not used. -/
def fieldOverlayFontSize (position : FieldPosition)
    (actualImageWidth actualImageHeight : ℚ) : ℚ :=
  calculateFontSize (percentToPixels position actualImageWidth actualImageHeight).height

/-- The font size the read-only preview (`PreviewCanvas.tsx`) applies to a
field's value text: `getTextStyle` of the natural-frame field height, then
scaled by `displayDimensions.width / imageDimensions.width`. -/
def previewCanvasFontSize (position : FieldPosition)
    (imageWidth imageHeight displayWidth : ℚ) : ℚ :=
  let textStyle := getTextStyle (percentToPixels position imageWidth imageHeight).height
  let scale := displayWidth / imageWidth
  textStyle.1 * scale

/-- The font size `FieldOverlay.tsx` gives the field-label chrome: the
inline style is the constant `12px` ("keep at constant size"); the `scale`
prop the component receives is not consulted. -/
def fieldLabelFontSize (scale : ℚ) : ℚ := 12

/-- The size `FieldOverlay.tsx` gives the empty-field pencil-icon chrome:
the constant `32px`, again independent of the `scale` prop. -/
def emptyFieldIconSize (scale : ℚ) : ℚ := 32

/-- The four resize handles of `TemplateBuilder.tsx`:
`corner: 'nw' | 'ne' | 'sw' | 'se'`. -/
inductive Corner where
  | nw
  | ne
  | sw
  | se
deriving Repr, DecidableEq

/-- One `mousemove` step of `handleFieldDrag` in `TemplateBuilder.tsx`:
the pointer's percentage position `(px, py)` becomes the new `x`/`y`,
clamped as `Math.max(0, Math.min(100 - currentPosition.width, x))` (resp.
height for `y`); width and height are spread through unchanged. -/
def handleFieldDragMove (currentPosition : FieldPosition) (px py : ℚ) :
    FieldPosition :=
  { currentPosition with
    x := max 0 (min (100 - currentPosition.width) px)
    y := max 0 (min (100 - currentPosition.height) py) }

/-- One `mousemove` step of `handleFieldResize` in `TemplateBuilder.tsx`
for a given corner, from the captured `currentPosition` and the pointer's
percentage position `(xPercent, yPercent)`. -/
def handleFieldResizeMove (currentPosition : FieldPosition) (corner : Corner)
    (xPercent yPercent : ℚ) : FieldPosition :=
  match corner with
  | .se =>
      -- Bottom-right: adjust width and height
      { currentPosition with
        width := max 5 (min (100 - currentPosition.x) (xPercent - currentPosition.x))
        height := max 3 (min (100 - currentPosition.y) (yPercent - currentPosition.y)) }
  | .sw =>
      -- Bottom-left: adjust x, width, and height
      let newX := max 0 (min (currentPosition.x + currentPosition.width - 5) xPercent)
      { currentPosition with
        x := newX
        width := currentPosition.x + currentPosition.width - newX
        height := max 3 (min (100 - currentPosition.y) (yPercent - currentPosition.y)) }
  | .ne =>
      -- Top-right: adjust y, width, and height
      let newY := max 0 (min (currentPosition.y + currentPosition.height - 3) yPercent)
      { currentPosition with
        y := newY
        height := currentPosition.y + currentPosition.height - newY
        width := max 5 (min (100 - currentPosition.x) (xPercent - currentPosition.x)) }
  | .nw =>
      -- Top-left: adjust x, y, width, and height
      let newX := max 0 (min (currentPosition.x + currentPosition.width - 5) xPercent)
      let newY := max 0 (min (currentPosition.y + currentPosition.height - 3) yPercent)
      { x := newX
        y := newY
        width := currentPosition.x + currentPosition.width - newX
        height := currentPosition.y + currentPosition.height - newY }

/-- The `Record<string, FieldPosition>` field-positions map of
`TemplateBuilder.tsx`, modelled extensionally. -/
def PositionsMap := String → Option FieldPosition

/-- The spread update `\x7b...fieldPositions, [fieldId]: newPosition\x7d`
used by both gesture handlers in `TemplateBuilder.tsx`. -/
def setFieldPosition (fieldPositions : PositionsMap) (fieldId : String)
    (newPosition : FieldPosition) : PositionsMap :=
  fun k => if k = fieldId then some newPosition else fieldPositions k

/-- A whole-map `mousemove` step of `handleFieldDrag`: read
`fieldPositions[fieldId]`, compute the dragged rectangle, and write only
that entry back via the spread update. -/
def handleFieldDragStep (fieldPositions : PositionsMap) (fieldId : String)
    (px py : ℚ) : PositionsMap :=
  match fieldPositions fieldId with
  | some currentPosition =>
      setFieldPosition fieldPositions fieldId (handleFieldDragMove currentPosition px py)
  | none => fieldPositions

/-- A whole-map `mousemove` step of `handleFieldResize`, analogous to
`handleFieldDragStep`. -/
def handleFieldResizeStep (fieldPositions : PositionsMap) (fieldId : String)
    (corner : Corner) (px py : ℚ) : PositionsMap :=
  match fieldPositions fieldId with
  | some currentPosition =>
      setFieldPosition fieldPositions fieldId
        (handleFieldResizeMove currentPosition corner px py)
  | none => fieldPositions

/-- The `NormalizedRect` invariant of the spec's data model, with the
source's minimums (width floor 5, height floor 3). -/
def Invariant (r : FieldPosition) : Prop :=
  0 ≤ r.x ∧ 0 ≤ r.y ∧ r.x + r.width ≤ 100 ∧ r.y + r.height ≤ 100 ∧
    5 ≤ r.width ∧ 3 ≤ r.height

instance (r : FieldPosition) : Decidable (Invariant r) := by
  unfold Invariant
  infer_instance

/-- The absolute coordinates of the corner opposite to the dragged resize
corner (the anchored corner). -/
def anchorPoint (corner : Corner) (r : FieldPosition) : ℚ × ℚ :=
  match corner with
  | .se => (r.x, r.y)
  | .nw => (r.x + r.width, r.y + r.height)
  | .sw => (r.x + r.width, r.y)
  | .ne => (r.x, r.y + r.height)

/-- Applying a sequence of resize pointer-move positions within one
gesture on a fixed corner. -/
def resizeGesture (currentPosition : FieldPosition) (corner : Corner)
    (moves : List (ℚ × ℚ)) : FieldPosition :=
  moves.foldl (fun r m => handleFieldResizeMove r corner m.1 m.2) currentPosition

/-- A two-field positions map used to exercise the gesture handlers on
concrete data. -/
def exampleMap : PositionsMap := fun k =>
  if k = "field_1" then some ⟨25, 25, 50, 10⟩
  else if k = "field_2" then some ⟨10, 40, 30, 20⟩
  else none

/-- Upper bound for the clamp pattern `max a (min b t)` when `a ≤ b`. -/
lemma max_min_le {a b t : ℚ} (hab : a ≤ b) : max a (min b t) ≤ b :=
  max_le hab (min_le_left _ _)

/-- A single resize pointer-move keeps the corner opposite the dragged
handle at its exact previous coordinates. -/
lemma anchorPoint_resizeMove (c : Corner) (cur : FieldPosition) (px py : ℚ) :
    anchorPoint c (handleFieldResizeMove cur c px py) = anchorPoint c cur := by
  cases c <;>
    simp only [handleFieldResizeMove, anchorPoint, Prod.mk.injEq] <;>
    constructor <;> ring_nf

/-- C4: `calculateFontSize pixelHeight` equals
`clamp (pixelHeight * 0.6) 10 20`, `calculateLineHeight fontSize` equals
`fontSize * 1.2`, and in particular the font size at heights 5, 50 and 20
is 10, 20 and 12 respectively. -/
theorem calculateFontSize_spec (pixelHeight fontSize : ℚ) :
    calculateFontSize pixelHeight = clamp (pixelHeight * 0.6) 10 20 ∧
    calculateLineHeight fontSize = fontSize * 1.2 ∧
    calculateFontSize 5 = 10 ∧
    calculateFontSize 50 = 20 ∧
    calculateFontSize 20 = 12 := by
  refine ⟨?_, rfl, by norm_num [calculateFontSize], by norm_num [calculateFontSize],
    by norm_num [calculateFontSize]⟩
  unfold calculateFontSize clamp
  rw [max_min_distrib_left, show max (10:ℚ) 20 = 20 from by norm_num, min_comm,
    max_comm]

/-- C2: for every rectangle and every positive frame,
`pixelsToPercent (percentToPixels r w h) w h = r` — over the exact
rationals the round-trip is the identity, so the 1e-9 tolerance is met. -/
theorem pixelsToPercent_percentToPixels_roundtrip
    (r : FieldPosition) (w h : ℚ) (hw : 0 < w) (hh : 0 < h) :
    pixelsToPercent (percentToPixels r w h) w h = r := by
  have hw' : w ≠ 0 := ne_of_gt hw
  have hh' : h ≠ 0 := ne_of_gt hh
  ext <;> simp only [percentToPixels, pixelsToPercent] <;> field_simp <;> ring

/-- Witness for C2 at rectangle `(10, 20, 30, 40)` in the frame
`800 × 600`. -/
theorem pixelsToPercent_percentToPixels_roundtrip_witness :
    (0:ℚ) < 800 ∧ (0:ℚ) < 600 ∧
      pixelsToPercent (percentToPixels ⟨10, 20, 30, 40⟩ 800 600) 800 600 =
        ⟨10, 20, 30, 40⟩ :=
  ⟨by norm_num, by norm_num,
    pixelsToPercent_percentToPixels_roundtrip ⟨10, 20, 30, 40⟩ 800 600
      (by norm_num) (by norm_num)⟩

/-- C3: on strictly positive extents, `updateDisplayDimensions` returns
the height-constrained layout when the container aspect ratio exceeds the
image aspect ratio and the width-constrained centered layout otherwise; in
particular container `1000 × 1000` with image `800 × 400` yields
`(1000, 500, 0, 250)` and container `1000 × 500` yields
`(1000, 500, 0, 0)`. -/
theorem updateDisplayDimensions_spec
    (cw ch iw ih : ℚ) (hcw : 0 < cw) (hch : 0 < ch) (hiw : 0 < iw) (hih : 0 < ih) :
    (cw / ch > iw / ih →
      updateDisplayDimensions cw ch iw ih =
        { width := ch * (iw / ih), height := ch
          offsetX := (cw - ch * (iw / ih)) / 2, offsetY := 0 }) ∧
    (¬ cw / ch > iw / ih →
      updateDisplayDimensions cw ch iw ih =
        { width := cw, height := cw / (iw / ih)
          offsetX := 0, offsetY := (ch - cw / (iw / ih)) / 2 }) ∧
    updateDisplayDimensions 1000 1000 800 400 =
      { width := 1000, height := 500, offsetX := 0, offsetY := 250 } ∧
    updateDisplayDimensions 1000 500 800 400 =
      { width := 1000, height := 500, offsetX := 0, offsetY := 0 } := by
  refine ⟨?_, ?_, by norm_num [updateDisplayDimensions], by norm_num [updateDisplayDimensions]⟩
  · intro hgt
    simp [updateDisplayDimensions, hgt]
  · intro hle
    simp [updateDisplayDimensions, hle]

/-- Witness for C3 at container `1000 × 500`, image `800 × 400` (the
equal-aspect-ratio case lands in the width-constrained branch). -/
theorem updateDisplayDimensions_spec_witness :
    ((0:ℚ) < 1000 ∧ (0:ℚ) < 500 ∧ (0:ℚ) < 800 ∧ (0:ℚ) < 400) ∧
      updateDisplayDimensions 1000 500 800 400 =
        { width := 1000, height := 500, offsetX := 0, offsetY := 0 } :=
  ⟨⟨by norm_num, by norm_num, by norm_num, by norm_num⟩,
    (updateDisplayDimensions_spec 1000 500 800 400 (by norm_num) (by norm_num)
      (by norm_num) (by norm_num)).2.2.2⟩

/-- C7: a drag pointer-move leaves width and height unchanged and writes
back `x = max 0 (min (100 - width) px)` and
`y = max 0 (min (100 - height) py)` (the clamp of the pointer position to
`[0, 100 - width]` resp. `[0, 100 - height]`); in particular a field of
width 20 and height 10 dragged toward pointer `x = 95` gets `x = 80`, so
`x + width = 100`. -/
theorem handleFieldDragMove_spec (cur : FieldPosition) (px py : ℚ) :
    (handleFieldDragMove cur px py).width = cur.width ∧
    (handleFieldDragMove cur px py).height = cur.height ∧
    (handleFieldDragMove cur px py).x = max 0 (min (100 - cur.width) px) ∧
    (handleFieldDragMove cur px py).y = max 0 (min (100 - cur.height) py) ∧
    (handleFieldDragMove ⟨30, 40, 20, 10⟩ 95 40).x = 80 ∧
    (handleFieldDragMove ⟨30, 40, 20, 10⟩ 95 40).x + 20 = 100 :=
  ⟨rfl, rfl, rfl, rfl, by norm_num [handleFieldDragMove], by norm_num [handleFieldDragMove]⟩

/-- C5: a rectangle satisfying the full `NormalizedRect` invariant still
satisfies it after any single drag pointer-move and after any single
resize pointer-move on any of the four corners, whatever the pointer
position (including overshoot outside `[0, 100]`). -/
theorem gesture_preserves_invariant (cur : FieldPosition)
    (hinv : Invariant cur) (px py : ℚ) :
    Invariant (handleFieldDragMove cur px py) ∧
    ∀ c : Corner, Invariant (handleFieldResizeMove cur c px py) := by
  obtain ⟨hx, hy, hxw, hyh, hw, hh⟩ := hinv
  have hdX : max 0 (min (100 - cur.width) px) ≤ 100 - cur.width :=
    max_min_le (by linarith)
  have hdY : max 0 (min (100 - cur.height) py) ≤ 100 - cur.height :=
    max_min_le (by linarith)
  have hseW : max 5 (min (100 - cur.x) (px - cur.x)) ≤ 100 - cur.x :=
    max_min_le (by linarith)
  have hseH : max 3 (min (100 - cur.y) (py - cur.y)) ≤ 100 - cur.y :=
    max_min_le (by linarith)
  have hnX : max 0 (min (cur.x + cur.width - 5) px) ≤ cur.x + cur.width - 5 :=
    max_min_le (by linarith)
  have hnY : max 0 (min (cur.y + cur.height - 3) py) ≤ cur.y + cur.height - 3 :=
    max_min_le (by linarith)
  constructor
  · simp only [Invariant, handleFieldDragMove]
    exact ⟨le_max_left _ _, le_max_left _ _, by linarith, by linarith, hw, hh⟩
  · intro c
    cases c with
    | nw =>
        simp only [Invariant, handleFieldResizeMove]
        exact ⟨le_max_left _ _, le_max_left _ _, by linarith, by linarith,
          by linarith, by linarith⟩
    | ne =>
        simp only [Invariant, handleFieldResizeMove]
        exact ⟨hx, le_max_left _ _, by linarith, by linarith,
          le_max_left _ _, by linarith⟩
    | sw =>
        simp only [Invariant, handleFieldResizeMove]
        exact ⟨le_max_left _ _, hy, by linarith, by linarith,
          by linarith, le_max_left _ _⟩
    | se =>
        simp only [Invariant, handleFieldResizeMove]
        exact ⟨hx, hy, by linarith, by linarith,
          le_max_left _ _, le_max_left _ _⟩

/-- Witness for C5 at the valid rectangle `(25, 25, 50, 10)`, a drag far
right and an SE resize with heavy overshoot. -/
theorem gesture_preserves_invariant_witness :
    Invariant ⟨25, 25, 50, 10⟩ ∧
      Invariant (handleFieldDragMove ⟨25, 25, 50, 10⟩ 95 (-40)) ∧
      Invariant (handleFieldResizeMove ⟨25, 25, 50, 10⟩ Corner.se 200 (-50)) :=
  ⟨by norm_num [Invariant],
    (gesture_preserves_invariant ⟨25, 25, 50, 10⟩ (by norm_num [Invariant]) 95 (-40)).1,
    (gesture_preserves_invariant ⟨25, 25, 50, 10⟩ (by norm_num [Invariant]) 200 (-50)).2 Corner.se⟩

/-- C6: every resize pointer-move keeps the corner opposite the dragged
handle fixed — for SE the point `(x, y)`, for NW `(x + width, y + height)`,
for SW `(x + width, y)`, for NE `(x, y + height)` — and the same holds
after any sequence of resize moves within one gesture. -/
theorem resize_anchors_opposite_corner :
    (∀ (c : Corner) (cur : FieldPosition) (px py : ℚ),
        anchorPoint c (handleFieldResizeMove cur c px py) = anchorPoint c cur) ∧
    ∀ (c : Corner) (cur : FieldPosition) (moves : List (ℚ × ℚ)),
        anchorPoint c (resizeGesture cur c moves) = anchorPoint c cur := by
  refine ⟨anchorPoint_resizeMove, ?_⟩
  intro c cur moves
  induction moves generalizing cur with
  | nil => rfl
  | cons m rest ih =>
      have hstep : resizeGesture cur c (m :: rest) =
          resizeGesture (handleFieldResizeMove cur c m.1 m.2) c rest := rfl
      rw [hstep, ih, anchorPoint_resizeMove]

/-- C10: a drag step and a resize step on field `f` leave every other
field `g` of the positions map exactly as it was. -/
theorem gesture_updates_only_target_field (m : PositionsMap) (f g : String)
    (hne : g ≠ f) (px py : ℚ) (c : Corner) :
    handleFieldDragStep m f px py g = m g ∧
    handleFieldResizeStep m f c px py g = m g := by
  constructor
  · unfold handleFieldDragStep setFieldPosition
    cases m f with
    | none => rfl
    | some cur => simp [hne]
  · unfold handleFieldResizeStep setFieldPosition
    cases m f with
    | none => rfl
    | some cur => simp [hne]

/-- Witness for C10: moving `field_1` in the concrete two-field map leaves
`field_2` untouched. -/
theorem gesture_updates_only_target_field_witness :
    ("field_2" ≠ "field_1") ∧
      handleFieldDragStep exampleMap "field_1" 95 40 "field_2" = exampleMap "field_2" ∧
      handleFieldResizeStep exampleMap "field_1" Corner.se 95 40 "field_2" =
        exampleMap "field_2" :=
  ⟨by decide,
    (gesture_updates_only_target_field exampleMap "field_1" "field_2"
      (by decide) 95 40 Corner.se).1,
    (gesture_updates_only_target_field exampleMap "field_1" "field_2"
      (by decide) 95 40 Corner.se).2⟩

/-- C8 counterexample: with a zero frame, `percentToPixels` neither
signals anything (it is a total function with no check) nor acts as an
identity/no-op — it returns the all-zero rectangle, ordinary numeric
output that differs from its input. -/
theorem percentToPixels_zero_frame_counter :
    percentToPixels ⟨10, 10, 20, 10⟩ 0 0 = ⟨0, 0, 0, 0⟩ ∧
    percentToPixels ⟨10, 10, 20, 10⟩ 0 0 ≠ ⟨10, 10, 20, 10⟩ := by
  constructor
  · ext <;> simp [percentToPixels]
  · intro h
    have hx := congrArg FieldPosition.x h
    norm_num [percentToPixels] at hx

/-- C8 amended: `percentToPixels` performs no zero-frame check — on a
zero frame it returns the all-zero pixel rectangle for every input
rectangle (and `pixelsToPercent` likewise contains no guard, dividing by
the frame unconditionally). -/
theorem percentToPixels_zero_frame (r : FieldPosition) :
    percentToPixels r 0 0 = ⟨0, 0, 0, 0⟩ := by
  ext <;> simp [percentToPixels]

/-- C9 counterexample: at zoom scale 2 the editor overlay's field label
is rendered at its base size 12, not at the inverse-scale-compensated
`12 / 2 = 6`. -/
theorem fieldLabelFontSize_not_compensated :
    fieldLabelFontSize 2 ≠ 12 / 2 := by
  norm_num [fieldLabelFontSize]

/-- C9 amended: the editor overlay renders its fixed-size chrome at the
constant base sizes — field label 12, empty-field icon 32 — for every
zoom scale; the viewport scale is not consulted, so no `b / s`
compensation is applied and the chrome's on-screen size varies with zoom
along with the rest of the canvas. -/
theorem chrome_constant_under_zoom (s : ℚ) :
    fieldLabelFontSize s = 12 ∧ emptyFieldIconSize s = 32 :=
  ⟨rfl, rfl⟩

/-- C1 counterexample: for the field rectangle `(10, 10, 20, 10)` on a
`1000 × 1000` natural image shown in a `500 × 500` display layout, the
editor overlay applies font size 20 but the read-only preview applies
`20 × (500 / 1000) = 10`, so the two renderers disagree and the preview's
font size depends on the display width. -/
theorem preview_editor_font_sizes_differ :
    fieldOverlayFontSize ⟨10, 10, 20, 10⟩ 1000 1000 = 20 ∧
    previewCanvasFontSize ⟨10, 10, 20, 10⟩ 1000 1000 500 = 10 ∧
    previewCanvasFontSize ⟨10, 10, 20, 10⟩ 1000 1000 500 ≠
      fieldOverlayFontSize ⟨10, 10, 20, 10⟩ 1000 1000 := by
  refine ⟨?_, ?_, ?_⟩ <;>
    norm_num [fieldOverlayFontSize, previewCanvasFontSize, getTextStyle,
      calculateFontSize, calculateLineHeight, percentToPixels]

/-- C1 amended: the editor overlay applies exactly
`calculateFontSize` of the natural-frame pixel height (independent of the
display layout), while the read-only preview applies that same value
multiplied by `displayWidth / naturalWidth`; the two agree exactly when
the display width equals the natural width. -/
theorem preview_editor_font_relation (p : FieldPosition) (W H w : ℚ) :
    fieldOverlayFontSize p W H = calculateFontSize (percentToPixels p W H).height ∧
    previewCanvasFontSize p W H w =
      calculateFontSize (percentToPixels p W H).height * (w / W) ∧
    (W ≠ 0 → w = W → previewCanvasFontSize p W H w = fieldOverlayFontSize p W H) := by
  refine ⟨rfl, rfl, ?_⟩
  intro hW hw
  subst hw
  show calculateFontSize (percentToPixels p w H).height * (w / w) =
    calculateFontSize (percentToPixels p w H).height
  rw [div_self hW, mul_one]

/-- Witness for the amended C1 at a display width equal to the natural
width, where preview and editor font sizes coincide. -/
theorem preview_editor_font_relation_witness :
    (1000:ℚ) ≠ 0 ∧
      previewCanvasFontSize ⟨10, 10, 20, 10⟩ 1000 1000 1000 =
        fieldOverlayFontSize ⟨10, 10, 20, 10⟩ 1000 1000 :=
  ⟨by norm_num,
    (preview_editor_font_relation ⟨10, 10, 20, 10⟩ 1000 1000 1000).2.2
      (by norm_num) rfl⟩
